import Mathlib

/-!
Shallow embedding of the timing and async-lifecycle hooks of the
hooks-belt repository, together with proofs about their behaviour.

Time is modelled as `Nat` milliseconds (the value returned by the
runtime clock).  Each hook becomes a state machine: the retained refs
and React state of the hook are a structure, and the events that can
reach the hook (consumer calls, renders with new props, timer firings
driven by the runtime, unmount) are an inductive type with a step
function translated from the source.  Invocations of a consumer
supplied callback are recorded in an explicit log.

The file is organised as definitions first (throttle, fetch, interval,
debounce), then the theorems about them.
-/

namespace HooksBelt

/-! ### Throttle (src/hooks/useThrottle.ts)

The hook keeps two refs: `lastExecuted` (a timestamp, initialised to
`0`) and `timeoutId` (the pending trailing timeout).  The returned
function, called at time `now` with arguments `args`, does:

* if `now - lastExecuted >= delay`: invoke `func(args)` synchronously
  and set `lastExecuted := now`;
* otherwise: clear any pending timeout and schedule a new one for
  `delay - (now - lastExecuted)` milliseconds from `now`, capturing
  `args`; when that timeout fires the runtime invokes `func(args)` and
  sets `lastExecuted := Date.now()` (the firing time).

The hook registers no effect and hence no unmount cleanup: unmounting
cancels nothing.  A pending timeout is modelled as the pair of its
absolute firing time and the captured arguments; clearing followed by
scheduling is the overwrite of that field.
-/

/-- Retained refs of `useThrottle`: `lastExecuted.current` and
`timeoutId.current` (the pending trailing timeout, as its absolute
firing time together with the arguments captured for it). -/
structure ThrottleState (α : Type) where
  lastExecuted : Nat
  timeoutId : Option (Nat × α)
  deriving Repr, DecidableEq

/-- Whole-system view of one mounted `useThrottle` instance: its refs,
whether the consumer is still attached, and the log of invocations of
the underlying `func` (firing time, arguments), in order. -/
structure ThrottleSys (α : Type) where
  st : ThrottleState α
  mounted : Bool
  log : List (Nat × α)
  deriving Repr, DecidableEq

/-- A freshly mounted `useThrottle` instance: `lastExecuted = 0`,
no pending timeout, nothing invoked yet. -/
def throttleInit (α : Type) : ThrottleSys α :=
  { st := { lastExecuted := 0, timeoutId := none }, mounted := true, log := [] }

/-- Events reaching a `useThrottle` instance: the consumer calls the
throttled function at time `t` with arguments `a`; the runtime clock
reaches time `t` (firing the pending timeout if it is due); the
consumer unmounts. -/
inductive TEvent (α : Type) where
  | call (t : Nat) (a : α)
  | tick (t : Nat)
  | unmount
  deriving Repr

/-- One step of the throttle system, translated from the body of
`useThrottle`.  `call` is the returned callback; `tick` delivers a due
timeout (the source gives the timeout handler `func(...args)` followed
by `lastExecuted.current = Date.now()`); `unmount` only marks the
consumer as detached, because the hook installs no cleanup. -/
def tstep (delay : Nat) : TEvent α → ThrottleSys α → ThrottleSys α
  | .call t a, c =>
      if delay ≤ t - c.st.lastExecuted then
        { c with st := { c.st with lastExecuted := t },
                 log := c.log ++ [(t, a)] }
      else
        { c with st := { c.st with
            timeoutId := some (t + (delay - (t - c.st.lastExecuted)), a) } }
  | .tick t, c =>
      match c.st.timeoutId with
      | some (ft, a) =>
          if ft ≤ t then
            { c with st := { lastExecuted := t, timeoutId := none },
                     log := c.log ++ [(t, a)] }
          else c
      | none => c
  | .unmount, c => { c with mounted := false }

/-- Run a list of events through the throttle system, oldest first. -/
def trun (delay : Nat) (es : List (TEvent α)) (c : ThrottleSys α) :
    ThrottleSys α :=
  es.foldl (fun c e => tstep delay e c) c

/-- Throttler state right after a leading-edge invocation at time 0
with argument 1: `lastExecuted = 0`, nothing pending, one logged
invocation. -/
def throttleCEx : ThrottleSys Nat :=
  { st := { lastExecuted := 0, timeoutId := none },
    mounted := true, log := [(0, 1)] }

/-- State of a `delay = 100` throttler after the consumer calls at
t=100 (leading invocation with argument 1), calls again at t=110
(schedules the trailing timeout for t=200 with argument 7), and then
unmounts.  `useThrottle` installs no cleanup, so the unmount cancels
nothing. -/
def throttleDetachTrace : ThrottleSys Nat :=
  trun 100 [TEvent.call 100 1, TEvent.call 110 7, TEvent.unmount]
    (throttleInit Nat)

/-! ### Fetch (src/hooks/useFetch.ts)

`useFetch(url, options)` holds three pieces of React state,
initialised by `useState(null)`, `useState(true)`, `useState(null)`:
`data`, `loading`, `error`.  `fetchData` does

```
setLoading(true); setError(null)
response <- fetch(url, options)        -- may reject
if !response.ok then throw Error("HTTP error! status: " ++ status)
result <- response.json()              -- may reject
setData(result)
catch err => setError(err instanceof Error ? err : Error("An error occurred"))
finally => setLoading(false)
```

A mount effect runs `fetchData` once, and it reruns whenever the
`(url, options)` pair changes identity; `refetch()` also calls
`fetchData`.  All three are the `trigger` event below.  The part of
`fetchData` before the first `await` runs synchronously at trigger
time; the rest runs when the operation settles, with the outcome of
the operation one of four cases.  An `Error` value is modelled by its
message; a thrown non-`Error` value is the `nonError` case. -/

/-- A JavaScript value caught by the `catch` block: either an `Error`
instance, carrying its message, or some other thrown value. -/
inductive JsErr where
  | error (msg : String)
  | nonError
  deriving Repr, DecidableEq

/-- The coercion performed by the catch block of `fetchData`:
`err instanceof Error ? err : new Error('An error occurred')`. -/
def coerceErr : JsErr → String
  | .error m => m
  | .nonError => "An error occurred"

/-- The four ways the asynchronous part of `fetchData` can settle:
the transport rejects; the response arrives with `ok = false` and a
status code; `response.json()` rejects; or a decoded value is
produced. -/
inductive FetchOutcome (T : Type) where
  | reject (e : JsErr)
  | notOk (status : Nat)
  | jsonReject (e : JsErr)
  | ok (v : T)
  deriving Repr, DecidableEq

/-- An outcome that ends in the catch block of `fetchData`. -/
def FetchOutcome.isFailure : FetchOutcome T → Bool
  | .ok _ => false
  | _ => true

/-- The React state of one `useFetch` instance as the consumer sees
it: `data`, `loading`, `error` (an `Error` modelled by its message). -/
structure FetchComp (T : Type) where
  data : Option T
  loading : Bool
  error : Option String
  deriving Repr, DecidableEq

/-- Synchronous prefix of `fetchData`: `setLoading(true)` and
`setError(null)`.  `data` is not touched. -/
def startFetch (s : FetchComp T) : FetchComp T :=
  { s with loading := true, error := none }

/-- Settlement suffix of `fetchData` applied to the state current at
settlement time: success stores the decoded value, every failure path
lands in the same catch block and stores an error message, and the
finally block clears `loading` in all cases. -/
def settleFetch : FetchOutcome T → FetchComp T → FetchComp T
  | .ok v, s => { s with data := some v, loading := false }
  | .reject e, s => { s with error := some (coerceErr e), loading := false }
  | .notOk st, s =>
      { s with error := some ("HTTP error! status: " ++ toString st),
               loading := false }
  | .jsonReject e, s =>
      { s with error := some (coerceErr e), loading := false }

/-- Whole-system view of one `useFetch` instance: the visible state,
how many operations have been started (each trigger starts operation
number `started` and increments it — there is no epoch ref in the
source, this counter only names the operations of a trace), and
whether the component is still mounted. -/
structure FetchSys (T : Type) where
  comp : FetchComp T
  started : Nat
  mounted : Bool
  deriving Repr, DecidableEq

/-- A freshly mounted `useFetch`, before any effect has run: the three
`useState` initialisers give `data = null`, `loading = true`,
`error = null`. -/
def fetchInit (T : Type) : FetchSys T :=
  { comp := { data := none, loading := true, error := none },
    started := 0, mounted := true }

/-- Events reaching a `useFetch` instance: a trigger (mount effect,
`(url, options)` identity change, or `refetch()`) which runs the
synchronous prefix of `fetchData` and starts a new operation; the
settlement of operation `k` with outcome `o`; unmount. -/
inductive FEvent (T : Type) where
  | trigger
  | settle (k : Nat) (o : FetchOutcome T)
  | unmount
  deriving Repr

/-- One step of the `useFetch` system.  The source contains no epoch
or cancellation check: the settlement of any started operation runs
the settlement suffix on the current state, no matter how many newer
triggers happened in between.  State setters called after unmount are
discarded by the host, so settlement and trigger only act while
mounted. -/
def fstep : FEvent T → FetchSys T → FetchSys T
  | .trigger, s =>
      if s.mounted then
        { s with comp := startFetch s.comp, started := s.started + 1 }
      else s
  | .settle k o, s =>
      if s.mounted then
        if k < s.started then { s with comp := settleFetch o s.comp } else s
      else s
  | .unmount, s => { s with mounted := false }

/-- Run a list of fetch events, oldest first. -/
def frun (es : List (FEvent T)) (s : FetchSys T) : FetchSys T :=
  es.foldl (fun s e => fstep e s) s

/-- The race of spec property 8.4 run through the source semantics:
operation 0 is started, then a second trigger starts operation 1;
the newer operation 1 settles first with value 2, then the stale
operation 0 settles with value 1. -/
def fetchRaceTrace : FetchSys Nat :=
  frun [FEvent.trigger, FEvent.trigger,
        FEvent.settle 1 (.ok 2), FEvent.settle 0 (.ok 1)]
    (fetchInit Nat)

/-- A `useFetch` instance that was triggered once and then unmounted
while its operation is still in flight. -/
def fetchDetachEx : FetchSys Nat :=
  fstep .unmount (fstep .trigger (fetchInit Nat))

/-! ### Interval (src/hooks/useInterval.ts)

`useInterval(callback, delay)` keeps `savedCallback`, a ref that an
effect with dependency `[callback]` updates to the latest callback on
every render where it changed.  A second effect with dependency
`[delay]` arms `setInterval(() => savedCallback.current?.(), delay)`
when `delay` is non-null, and its cleanup (run when `delay` changes or
on unmount) clears the interval.  Because the timer handler
dereferences the ref at fire time, it always invokes the most recently
supplied callback; because the arming effect depends only on `delay`,
a render that changes only the callback neither tears down nor re-arms
the timer. -/

/-- Whole-system view of one `useInterval` instance: the
`savedCallback` ref, the `delay` prop the arming effect last ran with,
the armed interval timer as its period and next firing time, whether
the consumer is still mounted, and the log of callback invocations
(firing time, callback invoked). -/
structure IntervalSys (κ : Type) where
  savedCallback : κ
  delayProp : Option Nat
  activeTimer : Option (Nat × Nat)
  mounted : Bool
  log : List (Nat × κ)
  deriving Repr

/-- Events reaching a `useInterval` instance: a render at time `t`
with props `(cb, d)`; the runtime clock reaching time `t` (firing the
interval if due); unmount. -/
inductive IEvent (κ : Type) where
  | render (t : Nat) (cb : κ) (d : Option Nat)
  | tick (t : Nat)
  | unmount
  deriving Repr

/-- One step of the `useInterval` system.  On a render, the
`[callback]` effect stores the latest callback in the ref, and the
`[delay]` effect reruns only when the delay prop changed: its cleanup
clears the old interval and, for a non-null delay `p`, a fresh
interval is armed with first firing at `t + p`.  A due tick invokes
`savedCallback.current` — the ref as it is *now* — and the interval
re-arms itself one period later.  Unmount runs the effect cleanup,
clearing the interval. -/
def istep : IEvent κ → IntervalSys κ → IntervalSys κ
  | .render t cb d, s =>
      if s.mounted then
        if d = s.delayProp then { s with savedCallback := cb }
        else
          match d with
          | none => { s with savedCallback := cb, delayProp := none,
                             activeTimer := none }
          | some p => { s with savedCallback := cb, delayProp := some p,
                               activeTimer := some (p, t + p) }
      else s
  | .tick t, s =>
      match s.activeTimer with
      | some (p, nf) =>
          if nf ≤ t then
            { s with activeTimer := some (p, nf + p),
                     log := s.log ++ [(t, s.savedCallback)] }
          else s
      | none => s
  | .unmount, s => { s with mounted := false, activeTimer := none }

/-- Run a list of interval events, oldest first. -/
def irun (es : List (IEvent κ)) (s : IntervalSys κ) : IntervalSys κ :=
  es.foldl (fun s e => istep e s) s

/-! ### Debounce

The repository ships `useDebounce.test.ts` but `useDebounce.ts` itself
is not among the sources, so the debounce hook is modelled from the
spec (section 4.1), which the test file is consistent with. -/

/-- Modelled from the spec: the missing `useDebounce.ts`
implementation.  State of one debounce instance per spec section 4.1:
`output` is the last published value (equal to the initial input on
the first tick), `lastSeen` the previously seen input, and
`pendingTimer` the at-most-one pending timer, as its absolute firing
time and the input value armed with it. -/
structure DebounceSys (α : Type) where
  output : α
  lastSeen : α
  pendingTimer : Option (Nat × α)
  mounted : Bool
  deriving Repr

/-- A debounce instance on its first observation tick with input `v`:
the output equals `v` immediately and no timer is pending. -/
def debounceInit (v : α) : DebounceSys α :=
  { output := v, lastSeen := v, pendingTimer := none, mounted := true }

/-- Events reaching a debounce instance: an observation tick at time
`t` with input `v`; the runtime clock reaching time `t` (firing the
pending timer if due); detach. -/
inductive DEvent (α : Type) where
  | render (t : Nat) (v : α)
  | tick (t : Nat)
  | unmount
  deriving Repr

/-- Modelled from the spec: one step of the missing `useDebounce.ts`.
Per spec section 4.1, an input differing from the previously seen one
cancels any pending timer and arms a new one for `delay` from now
(publishing nothing yet); a timer that fires un-cancelled publishes
the value armed with it; detach cancels the pending timer so no late
publish occurs. -/
def dstep [DecidableEq α] (delay : Nat) :
    DEvent α → DebounceSys α → DebounceSys α
  | .render t v, s =>
      if s.mounted then
        if v = s.lastSeen then s
        else { s with lastSeen := v, pendingTimer := some (t + delay, v) }
      else s
  | .tick t, s =>
      match s.pendingTimer with
      | some (ft, v) =>
          if ft ≤ t then { s with output := v, pendingTimer := none }
          else s
      | none => s
  | .unmount, s => { s with mounted := false, pendingTimer := none }

/-- Run a list of observation ticks (time, input) through the
debounce instance, oldest first. -/
def drenders [DecidableEq α] (delay : Nat) (l : List (Nat × α))
    (s : DebounceSys α) : DebounceSys α :=
  l.foldl (fun s p => dstep delay (.render p.1 p.2) s) s

/-- Each input of the run differs from the input seen just before
it. -/
def distinctRun [DecidableEq α] (prev : α) : List (Nat × α) → Bool
  | [] => true
  | p :: rest => (p.2 != prev) && distinctRun p.2 rest

/-- A debounce instance holding a pending timer due at t=600 for the
value 3, still mounted. -/
def debounceDetachEx : DebounceSys Nat :=
  { output := 0, lastSeen := 3, pendingTimer := some (600, 3),
    mounted := true }

/-! ## Theorems -/

/-- C5 counterexample: the very first call ever made through a fresh
throttler, at time 50 with `delay = 100`, is **not** invoked
synchronously (the log stays empty, so `func` does not receive the
arguments at that moment); instead a trailing timeout is scheduled for
time 100, because `lastExecuted` starts at the sentinel `0` rather
than at a marker for "never executed". -/
theorem useThrottle_first_call_not_sync_cex :
    (tstep 100 (.call 50 7) (throttleInit Nat)).log = [] ∧
    (tstep 100 (.call 50 7) (throttleInit Nat)).log ≠ [(50, 7)] ∧
    (tstep 100 (.call 50 7) (throttleInit Nat)).st.timeoutId = some (100, 7) := by
  decide

/-- C5 (amended): a call of the throttled function at time `t` invokes
`func` synchronously with the given arguments and records `t` as the
invocation timestamp **exactly when** `delay ≤ t - lastExecuted`,
where `lastExecuted` is initially `0`.  In particular `delay = 0`
makes every call fire immediately. -/
theorem useThrottle_sync_invoke_iff (delay t : Nat) (a : α)
    (c : ThrottleSys α) :
    ((tstep delay (.call t a) c).log = c.log ++ [(t, a)] ∧
      (tstep delay (.call t a) c).st.lastExecuted = t)
    ↔ delay ≤ t - c.st.lastExecuted := by
  constructor
  · intro h
    by_contra hnot
    have hc : tstep delay (.call t a) c =
        { c with st := { c.st with
            timeoutId := some (t + (delay - (t - c.st.lastExecuted)), a) } } := by
      simp [tstep, hnot]
    rw [hc] at h
    have hlen := congrArg List.length h.1
    simp at hlen
  · intro h
    simp [tstep, h]

/-- C5 witness: with `delay = 0`, a call at time 5 on a fresh
throttler fires synchronously with its argument and records the
timestamp. -/
theorem useThrottle_sync_invoke_iff_witness :
    (tstep 0 (.call 5 (3 : Nat)) (throttleInit Nat)).log =
      (throttleInit Nat).log ++ [(5, 3)] ∧
    (tstep 0 (.call 5 (3 : Nat)) (throttleInit Nat)).st.lastExecuted = 5 :=
  (useThrottle_sync_invoke_iff 0 5 3 (throttleInit Nat)).mpr (by decide)

/-- C8: when the pending trailing timeout (due at `ft`) fires at time
`t`, the recorded last-invocation timestamp becomes `t` — the firing
time, not the time of the call that scheduled it — and the pending
slot is cleared; consequently a further call at any time `u` with
`u - t < delay` finds the cooldown window open (it is measured from
the trailing firing time) and is not invoked synchronously. -/
theorem useThrottle_trailing_timestamp (delay t ft : Nat) (a : α)
    (c : ThrottleSys α) (hp : c.st.timeoutId = some (ft, a))
    (hft : ft ≤ t) :
    (tstep delay (.tick t) c).st.lastExecuted = t ∧
    (tstep delay (.tick t) c).st.timeoutId = none ∧
    ∀ u (b : α), u - t < delay →
      (tstep delay (.call u b) (tstep delay (.tick t) c)).log =
        (tstep delay (.tick t) c).log ∧
      (tstep delay (.call u b) (tstep delay (.tick t) c)).st.lastExecuted
        = t := by
  have hc : tstep delay (.tick t) c =
      { c with st := { lastExecuted := t, timeoutId := none },
               log := c.log ++ [(t, a)] } := by
    simp [tstep, hp, hft]
  refine ⟨by rw [hc], by rw [hc], ?_⟩
  intro u b hu
  have hnot : ¬ delay ≤ u - t := Nat.not_le.mpr hu
  rw [hc]
  constructor
  · simp [tstep, hnot]
  · simp [tstep, hnot]

/-- C8 witness: a trailing timeout scheduled (by a call at time 110)
to fire at 200 with argument 5 fires at 200; the cooldown of a
`delay = 100` throttler is then measured from 200, so a call at 250
is deferred. -/
theorem useThrottle_trailing_timestamp_witness :
    (tstep 100 (.tick 200)
        ⟨⟨100, some (200, 5)⟩, true, [(100, 1)]⟩ :
      ThrottleSys Nat).st.lastExecuted = 200 ∧
    (tstep 100 (.call 250 9) (tstep 100 (.tick 200)
        (⟨⟨100, some (200, 5)⟩, true, [(100, 1)]⟩ :
      ThrottleSys Nat))).st.lastExecuted = 200 := by
  have h := useThrottle_trailing_timestamp 100 200 200 5
    (⟨⟨100, some (200, 5)⟩, true, [(100, 1)]⟩ : ThrottleSys Nat)
    rfl (by decide)
  exact ⟨h.1, (h.2.2 250 9 (by decide)).2⟩

theorem trun_cons (delay : Nat) (e : TEvent α) (es : List (TEvent α))
    (c : ThrottleSys α) :
    trun delay (e :: es) c = trun delay es (tstep delay e c) := rfl

/-- Running a run of calls that all land inside the cooldown window of
a throttler whose last invocation happened at `lastExecuted` leaves
`lastExecuted` and the log untouched and ends with exactly one pending
trailing timeout, due at `lastExecuted + delay`, carrying the
arguments of the last call of the run. -/
theorem throttle_cooldown_run (delay : Nat) :
    ∀ (l : List (Nat × α)) (c : ThrottleSys α) (q : Nat × α),
      l.getLast? = some q →
      (∀ p ∈ l, c.st.lastExecuted ≤ p.1 ∧ p.1 - c.st.lastExecuted < delay) →
      trun delay (l.map fun p => TEvent.call p.1 p.2) c =
        { c with st := { c.st with
            timeoutId := some (c.st.lastExecuted + delay, q.2) } } := by
  intro l
  induction l with
  | nil => intro c q hq hw; simp at hq
  | cons p rest ih =>
    intro c q hq hw
    obtain ⟨⟨L, tid⟩, m, lg⟩ := c
    have hp := hw p (List.mem_cons_self p rest)
    have hL : L ≤ p.1 := hp.1
    have hD : p.1 - L < delay := hp.2
    have hnot : ¬ delay ≤ p.1 - L := Nat.not_le.mpr hD
    have hft : p.1 + (delay - (p.1 - L)) = L + delay := by omega
    have hstep : tstep delay (.call p.1 p.2) ⟨⟨L, tid⟩, m, lg⟩ =
        ⟨⟨L, some (L + delay, p.2)⟩, m, lg⟩ := by
      simp [tstep, hnot, hft]
    cases rest with
    | nil =>
      simp at hq
      rw [List.map_singleton, trun_cons, hstep]
      simp [trun, hq]
    | cons r rs =>
      have hq2 : (r :: rs).getLast? = some q := by
        rw [← hq, List.getLast?_cons_cons]
      have hw2 : ∀ x ∈ r :: rs,
          (⟨⟨L, some (L + delay, p.2)⟩, m, lg⟩ :
            ThrottleSys α).st.lastExecuted ≤ x.1 ∧
          x.1 - (⟨⟨L, some (L + delay, p.2)⟩, m, lg⟩ :
            ThrottleSys α).st.lastExecuted < delay := by
        intro x hx
        exact hw x (List.mem_cons_of_mem p hx)
      have hrest := ih ⟨⟨L, some (L + delay, p.2)⟩, m, lg⟩ q hq2 hw2
      rw [List.map_cons, trun_cons, hstep, hrest]

/-- C3: every call made while the cooldown window is open (strictly
less than `delay` since `lastExecuted`) produces no invocation of
`func` (the log is unchanged) and leaves exactly one scheduled
trailing timeout, due at `lastExecuted + delay`; later cooldown calls
replace the arguments that timeout will use rather than adding a
second one, so when it fires it invokes `func` once with the arguments
of the most recent call, and arguments of intermediate calls are never
passed to `func`. -/
theorem useThrottle_trailing_collapse (delay : Nat) (c : ThrottleSys α)
    (l : List (Nat × α)) (q : Nat × α)
    (hq : l.getLast? = some q)
    (hw : ∀ p ∈ l, c.st.lastExecuted ≤ p.1 ∧
      p.1 - c.st.lastExecuted < delay) :
    trun delay (l.map fun p => TEvent.call p.1 p.2) c =
      { c with st := { c.st with
          timeoutId := some (c.st.lastExecuted + delay, q.2) } } ∧
    tstep delay (.tick (c.st.lastExecuted + delay))
        (trun delay (l.map fun p => TEvent.call p.1 p.2) c) =
      { c with st := { lastExecuted := c.st.lastExecuted + delay,
                       timeoutId := none },
               log := c.log ++ [(c.st.lastExecuted + delay, q.2)] } := by
  have h1 := throttle_cooldown_run delay l c q hq hw
  refine ⟨h1, ?_⟩
  rw [h1]
  simp [tstep]

/-- C3 witness: with `delay = 100`, after a leading invocation at
t=0 with argument 1, cooldown calls at t=10 (argument 2) and t=40
(argument 3) collapse to one trailing timeout at t=100 that fires with
argument 3; argument 2 is never passed to `func`. -/
theorem useThrottle_trailing_collapse_witness :
    trun 100 ([(10, 2), (40, 3)].map fun p => TEvent.call p.1 p.2)
        throttleCEx =
      { throttleCEx with st := { throttleCEx.st with
          timeoutId := some (throttleCEx.st.lastExecuted + 100, 3) } } ∧
    tstep 100 (.tick (throttleCEx.st.lastExecuted + 100))
        (trun 100 ([(10, 2), (40, 3)].map fun p => TEvent.call p.1 p.2)
          throttleCEx) =
      { throttleCEx with
          st := { lastExecuted := throttleCEx.st.lastExecuted + 100,
                  timeoutId := none },
          log := throttleCEx.log ++
            [(throttleCEx.st.lastExecuted + 100, 3)] } :=
  useThrottle_trailing_collapse 100 throttleCEx [(10, 2), (40, 3)]
    (40, 3) rfl (by decide)

/-- C2 counterexample: after the consumer detaches, the trailing
timeout scheduled before detach is still pending and, when the clock
reaches its due time, it fires and invokes the consumer callback —
the invocation log grows after detach. -/
theorem useThrottle_fires_after_detach_cex :
    throttleDetachTrace.mounted = false ∧
    throttleDetachTrace.st.timeoutId = some (200, 7) ∧
    (tstep 100 (.tick 200) throttleDetachTrace).log =
      throttleDetachTrace.log ++ [(200, 7)] := by
  decide

/-- C2 (amended): detach safety holds for the interval runner (the
unmount cleanup clears the interval, so later clock ticks fire no
callback and change nothing), for the debounce instance (detach
cancels the pending timer, so no late publish occurs), and for the
fetch manager (a settlement arriving after unmount calls only state
setters, which the host discards, so the visible state does not
change); it fails for the throttle hook, which installs no detach
cleanup, so a trailing timeout in flight at detach still fires and
invokes the consumer callback. -/
theorem detach_no_late_effects :
    (∀ (κ : Type) (s : IntervalSys κ) (t : Nat),
      (istep .unmount s).activeTimer = none ∧
      istep (.tick t) (istep .unmount s) = istep .unmount s) ∧
    (∀ (α : Type) [DecidableEq α] (delay : Nat)
      (s : DebounceSys α) (t : Nat),
      (dstep delay .unmount s).pendingTimer = none ∧
      dstep delay (.tick t) (dstep delay .unmount s) =
        dstep delay .unmount s) ∧
    (∀ (T : Type) (s : FetchSys T) (k : Nat) (o : FetchOutcome T),
      s.mounted = false → fstep (.settle k o) s = s) := by
  refine ⟨?_, ?_, ?_⟩
  · intro κ s t
    exact ⟨rfl, by simp [istep]⟩
  · intro α inst delay s t
    exact ⟨rfl, by simp [dstep]⟩
  · intro T s k o hm
    simp [fstep, hm]

/-- C2 witness: a live interval timer, a pending debounce timer and an
in-flight fetch are all inert after detach: the tick that would have
fired them, and the stale settlement, leave the detached state
untouched. -/
theorem detach_no_late_effects_witness :
    istep (.tick 2000) (istep .unmount
        (⟨1, some 1000, some (1000, 1000), true, []⟩ : IntervalSys Nat)) =
      istep .unmount
        (⟨1, some 1000, some (1000, 1000), true, []⟩ : IntervalSys Nat) ∧
    dstep 500 (.tick 600) (dstep 500 .unmount debounceDetachEx) =
      dstep 500 .unmount debounceDetachEx ∧
    fstep (.settle 0 (.ok 3)) fetchDetachEx = fetchDetachEx :=
  ⟨(detach_no_late_effects.1 Nat
      ⟨1, some 1000, some (1000, 1000), true, []⟩ 2000).2,
   (detach_no_late_effects.2.1 Nat 500 debounceDetachEx 600).2,
   detach_no_late_effects.2.2 Nat fetchDetachEx 0 (.ok 3) rfl⟩

/-- C1 counterexample: after all pending operations settle, the
visible `data` is the value of the *stale* operation 0 (which settled
last), not the value of the operation started by the most recent
trigger — `useFetch` has no staleness guard, so the earlier
operation's settlement mutates the visible state. -/
theorem useFetch_stale_overwrite_cex :
    fetchRaceTrace.comp.data = some 1 ∧
    ¬ fetchRaceTrace.comp.data = some 2 := by
  decide

/-- C1 (amended): the settlement of *any* started operation — however
many newer triggers occurred since it started — runs the settlement
suffix on the visible state.  There is no epoch comparison, so after
all pending operations settle the visible `data`/`error` is that of
the operation that settled last, not of the most recently triggered
one. -/
theorem useFetch_settle_unguarded (T : Type) (s : FetchSys T) (k : Nat)
    (o : FetchOutcome T) (hm : s.mounted = true) (hk : k < s.started) :
    fstep (.settle k o) s = { s with comp := settleFetch o s.comp } := by
  simp [fstep, hm, hk]

/-- C1 witness: in the race trace, right before the stale settlement,
applying operation 0's settlement does mutate the visible state. -/
theorem useFetch_settle_unguarded_witness :
    fstep (.settle 0 (.ok 1))
        (frun [FEvent.trigger, FEvent.trigger, FEvent.settle 1 (.ok 2)]
          (fetchInit Nat)) =
      { frun [FEvent.trigger, FEvent.trigger, FEvent.settle 1 (.ok 2)]
          (fetchInit Nat) with
        comp := settleFetch (.ok 1)
          (frun [FEvent.trigger, FEvent.trigger, FEvent.settle 1 (.ok 2)]
            (fetchInit Nat)).comp } :=
  useFetch_settle_unguarded Nat _ 0 (.ok 1) rfl (by decide)

/-- C7: every failing outcome — transport rejection, response with
`ok = false`, or `response.json()` rejection — lands in the single
catch/finally pair and produces the same shape: `error` becomes some
`Error` message, `loading` becomes false, and nothing else changes;
the three failure kinds differ only in the message stored. -/
theorem useFetch_failure_normalized (T : Type) (s : FetchComp T)
    (o : FetchOutcome T) (h : o.isFailure = true) :
    ∃ m, settleFetch o s = { s with error := some m, loading := false } := by
  cases o with
  | ok v => simp [FetchOutcome.isFailure] at h
  | reject e => exact ⟨coerceErr e, rfl⟩
  | notOk st => exact ⟨"HTTP error! status: " ++ toString st, rfl⟩
  | jsonReject e => exact ⟨coerceErr e, rfl⟩

/-- C7 witness: a 404 response is normalized into the Failed shape
with a descriptive message. -/
theorem useFetch_failure_normalized_witness :
    ∃ m, settleFetch (.notOk 404)
        ({ data := some 5, loading := true, error := none } :
          FetchComp Nat) =
      { ({ data := some 5, loading := true, error := none } :
          FetchComp Nat) with error := some m, loading := false } :=
  useFetch_failure_normalized Nat
    { data := some 5, loading := true, error := none } (.notOk 404) rfl

/-- C9: a whole failed operation — the synchronous prefix at trigger
time followed by a failing settlement — leaves `data` exactly as it
was before the operation started, while `error` ends non-null; hence
after a failed refetch of previously fetched data, `data` and `error`
are simultaneously non-null. -/
theorem useFetch_data_retained_on_failure (T : Type) (s : FetchComp T)
    (o : FetchOutcome T) (h : o.isFailure = true) :
    (settleFetch o (startFetch s)).data = s.data ∧
    ∃ m, (settleFetch o (startFetch s)).error = some m := by
  cases o with
  | ok v => simp [FetchOutcome.isFailure] at h
  | reject e => exact ⟨rfl, ⟨coerceErr e, rfl⟩⟩
  | notOk st => exact ⟨rfl, ⟨"HTTP error! status: " ++ toString st, rfl⟩⟩
  | jsonReject e => exact ⟨rfl, ⟨coerceErr e, rfl⟩⟩

/-- C9 witness: a refetch that rejects, started from a state holding
previously fetched `data = 5`, keeps `data = 5` while storing an
error — both non-null at once. -/
theorem useFetch_data_retained_on_failure_witness :
    (settleFetch (.reject (.error "boom"))
        (startFetch (⟨some 5, false, none⟩ : FetchComp Nat))).data
      = some 5 ∧
    ∃ m, (settleFetch (.reject (.error "boom"))
        (startFetch (⟨some 5, false, none⟩ : FetchComp Nat))).error
      = some m :=
  useFetch_data_retained_on_failure Nat ⟨some 5, false, none⟩
    (.reject (.error "boom")) rfl

/-- C10: on first observation, before any operation settles, the hook
reports `loading = true`, `data = null`, `error = null` — it is
created directly in the Loading state, with no operation yet
started. -/
theorem useFetch_initial_state (T : Type) :
    (fetchInit T).comp.loading = true ∧ (fetchInit T).comp.data = none ∧
    (fetchInit T).comp.error = none ∧ (fetchInit T).started = 0 :=
  ⟨rfl, rfl, rfl, rfl⟩

/-- C10 witness: the initial state at a concrete payload type. -/
theorem useFetch_initial_state_witness :
    (fetchInit Nat).comp.loading = true ∧
    (fetchInit Nat).comp.data = none ∧
    (fetchInit Nat).comp.error = none ∧ (fetchInit Nat).started = 0 :=
  useFetch_initial_state Nat

/-- C6: while the delay prop is non-null (period `p`, next firing at
`nf`), a render that replaces only the callback (same delay) leaves
the armed timer — and hence the period's phase — untouched, and the
next firing invokes the newly supplied callback, not the one that was
current when the timer was armed. -/
theorem useInterval_latest_callback (κ : Type) (s : IntervalSys κ)
    (t nf p : Nat) (y : κ) (hm : s.mounted = true)
    (hd : s.delayProp = some p) (ht : s.activeTimer = some (p, nf)) :
    (istep (.render t y (some p)) s).activeTimer = s.activeTimer ∧
    (istep (.render t y (some p)) s).savedCallback = y ∧
    istep (.tick nf) (istep (.render t y (some p)) s) =
      { s with savedCallback := y, activeTimer := some (p, nf + p),
               log := s.log ++ [(nf, y)] } := by
  have hrender : istep (.render t y (some p)) s =
      { s with savedCallback := y } := by
    simp [istep, hm, hd]
  refine ⟨by rw [hrender], by rw [hrender], ?_⟩
  rw [hrender]
  simp [istep, ht]

/-- C6 witness: a timer armed with period 1000 and next firing at
1000, callback 1; a render at time 400 swaps the callback for 2
without touching the timer, and the firing at 1000 invokes 2. -/
theorem useInterval_latest_callback_witness :
    (istep (.render 400 2 (some 1000))
        (⟨1, some 1000, some (1000, 1000), true, []⟩ :
          IntervalSys Nat)).activeTimer = some (1000, 1000) ∧
    istep (.tick 1000) (istep (.render 400 2 (some 1000))
        (⟨1, some 1000, some (1000, 1000), true, []⟩ :
          IntervalSys Nat)) =
      { (⟨1, some 1000, some (1000, 1000), true, []⟩ :
          IntervalSys Nat) with
        savedCallback := 2, activeTimer := some (1000, 2000),
        log := [] ++ [(1000, 2)] } := by
  have h := useInterval_latest_callback Nat
    ⟨1, some 1000, some (1000, 1000), true, []⟩ 400 1000 1000 2
    rfl rfl rfl
  exact ⟨by rw [h.1], h.2.2⟩

/-- A run of pairwise-changing inputs leaves the published output
untouched and ends with exactly one pending timer, armed at the last
change for that change's value. -/
theorem debounce_changes_run [DecidableEq α] (delay : Nat) :
    ∀ (l : List (Nat × α)) (s : DebounceSys α) (q : Nat × α),
      s.mounted = true → l.getLast? = some q →
      distinctRun s.lastSeen l = true →
      drenders delay l s =
        { s with lastSeen := q.2,
                 pendingTimer := some (q.1 + delay, q.2) } := by
  intro l
  induction l with
  | nil => intro s q hm hq hd; simp at hq
  | cons p rest ih =>
    intro s q hm hq hd
    obtain ⟨o, seen, pt, m⟩ := s
    have hm2 : m = true := hm
    subst hm2
    have hd2 : ((p.2 != seen) && distinctRun p.2 rest) = true := hd
    rw [Bool.and_eq_true, bne_iff_ne] at hd2
    have hstep : dstep delay (.render p.1 p.2) ⟨o, seen, pt, true⟩ =
        ⟨o, p.2, some (p.1 + delay, p.2), true⟩ := by
      simp [dstep, hd2.1]
    cases rest with
    | nil =>
      simp at hq
      rw [show drenders delay [p] ⟨o, seen, pt, true⟩ =
            dstep delay (.render p.1 p.2) ⟨o, seen, pt, true⟩ from rfl,
        hstep]
      simp [hq]
    | cons r rs =>
      have hq2 : (r :: rs).getLast? = some q := by
        rw [← hq, List.getLast?_cons_cons]
      have hrest := ih ⟨o, p.2, some (p.1 + delay, p.2), true⟩ q rfl
        hq2 hd2.2
      rw [show drenders delay (p :: r :: rs) ⟨o, seen, pt, true⟩ =
            drenders delay (r :: rs)
              (dstep delay (.render p.1 p.2) ⟨o, seen, pt, true⟩) from rfl,
        hstep, hrest]

/-- C4: for a nonempty run of input changes (each differing from the
input seen before it), the published output is unchanged by the whole
run; any clock tick strictly before `delay` after the last change
publishes nothing and leaves the state untouched; and the tick at
exactly `delay` after the last change publishes the last change's
value and clears the pending timer, so earlier intermediate values of
the run are never published. -/
theorem useDebounce_quiescence [DecidableEq α] (delay : Nat)
    (l : List (Nat × α)) (s : DebounceSys α) (q : Nat × α)
    (hm : s.mounted = true) (hq : l.getLast? = some q)
    (hd : distinctRun s.lastSeen l = true) :
    (drenders delay l s).output = s.output ∧
    (∀ u, u < q.1 + delay →
      dstep delay (.tick u) (drenders delay l s) = drenders delay l s) ∧
    (dstep delay (.tick (q.1 + delay)) (drenders delay l s)).output
      = q.2 ∧
    (dstep delay (.tick (q.1 + delay))
      (drenders delay l s)).pendingTimer = none := by
  have hrun := debounce_changes_run delay l s q hm hq hd
  rw [hrun]
  refine ⟨rfl, ?_, ?_, ?_⟩
  · intro u hu
    have hnot : ¬ q.1 + delay ≤ u := Nat.not_le.mpr hu
    simp [dstep, hnot]
  · simp [dstep]
  · simp [dstep]

/-- C4 witness: spec scenario 8.1 with inputs 1, 2, 3 at t = 0, 50,
100 and `delay = 500` from the first tick with input 0: the output
stays 0 through every tick before t = 600, and the tick at t = 600
publishes 3; the intermediate values 1 and 2 are never published. -/
theorem useDebounce_quiescence_witness :
    (drenders 500 [(0, 1), (50, 2), (100, 3)]
      (debounceInit (0 : Nat))).output = (debounceInit (0 : Nat)).output ∧
    (∀ u, u < 600 →
      dstep 500 (.tick u)
          (drenders 500 [(0, 1), (50, 2), (100, 3)]
            (debounceInit (0 : Nat))) =
        drenders 500 [(0, 1), (50, 2), (100, 3)]
          (debounceInit (0 : Nat))) ∧
    (dstep 500 (.tick 600)
      (drenders 500 [(0, 1), (50, 2), (100, 3)]
        (debounceInit (0 : Nat)))).output = 3 ∧
    (dstep 500 (.tick 600)
      (drenders 500 [(0, 1), (50, 2), (100, 3)]
        (debounceInit (0 : Nat)))).pendingTimer = none :=
  useDebounce_quiescence 500 [(0, 1), (50, 2), (100, 3)]
    (debounceInit (0 : Nat)) (100, 3) rfl rfl (by decide)

end HooksBelt
